import Mathlib

/-!
Shallow embedding of randrctl's core (`randrctl/ctl.py`): the profile
matcher, the hook-wrapped apply pipeline, home-directory resolution and
the shallow configuration overlay, together with theorems checking the
specification's claims against it.

Python dictionaries are embedded as association lists `List (String × α)`
with first-match lookup and in-place overwrite on assignment; Python
`None`-able values become `Option`; exceptions become `Except String`.
-/

set_option autoImplicit false

namespace Randrctl

/-! ### Association-list embedding of Python `dict` -/

/-- First-match lookup, embedding Python `d.get(k)` / `k in d`. -/
def dictGet {α : Type} : List (String × α) → String → Option α
  | [], _ => none
  | (k', v) :: rest, k => if k' = k then some v else dictGet rest k

/-- Embedding of Python `d[k] = v`: overwrite the existing binding in place,
or append a fresh one. -/
def dictSet {α : Type} : List (String × α) → String → α → List (String × α)
  | [], k, v => [(k, v)]
  | (k', v') :: rest, k, v =>
    if k' = k then (k, v) :: rest else (k', v') :: dictSet rest k v

theorem dictGet_dictSet_same {α : Type} (d : List (String × α)) (k : String) (v : α) :
    dictGet (dictSet d k v) k = some v := by
  induction d with
  | nil => simp [dictGet, dictSet]
  | cons kv rest ih =>
    by_cases h : kv.1 = k
    · simp [dictGet, dictSet, h]
    · simp [dictGet, dictSet, h, ih]

theorem dictGet_dictSet_ne {α : Type} (d : List (String × α)) (k k' : String) (v : α)
    (h : k' ≠ k) : dictGet (dictSet d k v) k' = dictGet d k' := by
  induction d with
  | nil => simp [dictGet, dictSet, Ne.symm h]
  | cons kv rest ih =>
    obtain ⟨k₀, v₀⟩ := kv
    by_cases hk : k₀ = k
    · subst hk
      simp [dictGet, dictSet, Ne.symm h]
    · simp [dictGet, dictSet, hk, ih]

/-- Embedding of Python whitespace for `str.strip`. -/
def isPyWs (c : Char) : Bool :=
  c = ' ' || c = '\t' || c = '\n' || c = '\x0d' || c = '\x0b' || c = '\x0c'

/-- Embedding of Python `s.strip()`: drop leading and trailing whitespace. -/
def pyStrip (s : String) : String :=
  String.mk (((s.toList.dropWhile isPyWs).reverse.dropWhile isPyWs).reverse)

/-! ### Data model

`randrctl/model.py` is not part of the sources at hand; the record shapes
below are modelled from the spec (section 3): `MatchRule` per-output hints,
`ConnectedOutput` live state, `OutputSpec` stored per-output settings and
`Profile`. -/

/-- Modelled from the spec: a `rules` entry — optional `edid`, `supports`
and `prefers` hints (absence means "don't use this signal"). -/
structure MatchRule where
  edid : Option String := none
  supports : Option (List String) := none
  prefers : Option String := none
  deriving Repr, DecidableEq

/-- Modelled from the spec: live output state reported by xrandr. -/
structure ConnectedOutput where
  name : String
  edid : String
  supportedModes : List String
  preferredMode : String
  deriving Repr, DecidableEq

/-- Modelled from the spec: one stored per-output record of a profile
(mode, position, rotation, refresh rate, primary flag). -/
structure OutputSpec where
  name : String
  mode : String := ""
  pos : String := ""
  rotate : String := ""
  primary : Bool := false
  rate : Option String := none
  deriving Repr, DecidableEq

/-- Modelled from the spec: a named, persisted display configuration. -/
structure Profile where
  name : String
  priority : Int := 100
  outputs : List OutputSpec := []
  rules : Option (List (String × MatchRule)) := none
  deriving Repr, DecidableEq

/-! ### ProfileMatcher

`randrctl/profile.py` is not among the sources at hand; the matcher is
modelled from the spec (section 4.1): disqualification when a profile names
an output that is not connected, per-output weights taking the strongest
applicable signal (EDID 100, supports 50, prefers 25, name-only 1), and a
deterministic descending sort with priority / output-count / name
tie-breaks. -/

/-- Is an output of the given name present among the connected outputs? -/
def outputPresent (conn : List ConnectedOutput) (name : String) : Bool :=
  conn.any (fun c => c.name = name)

/-- The matching rule a profile declares for an output name, if any. -/
def ruleFor (p : Profile) (name : String) : Option MatchRule :=
  match p.rules with
  | none => none
  | some rs => dictGet rs name

/-- Modelled from the spec: weight of one rule against one connected
output, taking the strongest applicable signal. -/
def ruleWeight (r : MatchRule) (c : ConnectedOutput) : Nat :=
  if r.edid = some c.edid then 100
  else if (match r.supports with
           | some s => s.all (fun m => c.supportedModes.contains m)
           | none => false) then 50
  else if r.prefers = some c.preferredMode then 25
  else 1

/-- Modelled from the spec: weight contributed by one profile output. -/
def outputWeight (conn : List ConnectedOutput) (p : Profile) (o : OutputSpec) : Nat :=
  match conn.find? (fun c => c.name = o.name) with
  | none => 0
  | some c =>
    match ruleFor p o.name with
    | none => 1
    | some r => ruleWeight r c

/-- Modelled from the spec: score of a profile against the connected set;
`none` when the profile is disqualified because it names an output that is
not connected. -/
def score (p : Profile) (conn : List ConnectedOutput) : Option Nat :=
  if p.outputs.all (fun o => outputPresent conn o.name) then
    some (p.outputs.foldl (fun acc o => acc + outputWeight conn p o) 0)
  else none

/-- Modelled from the spec: `a` ranks strictly before `b` — higher score,
then higher priority, then more outputs, then lexicographic name. -/
def ranksBefore (a b : Nat × Profile) : Bool :=
  if a.1 ≠ b.1 then b.1 < a.1
  else if a.2.priority ≠ b.2.priority then b.2.priority < a.2.priority
  else if a.2.outputs.length ≠ b.2.outputs.length then b.2.outputs.length < a.2.outputs.length
  else a.2.name ≤ b.2.name

/-- Insert into a sorted list, keeping the comparator's order. -/
def insertRanked {α : Type} (r : α → α → Bool) (x : α) : List α → List α
  | [] => [x]
  | y :: ys => if r x y then x :: y :: ys else y :: insertRanked r x ys

/-- Insertion sort by the comparator. -/
def sortRanked {α : Type} (r : α → α → Bool) : List α → List α
  | [] => []
  | x :: xs => insertRanked r x (sortRanked r xs)

/-- Modelled from the spec: `match(profiles, connected)` — the eligible
profiles with their scores, in descending rank order. -/
def matchProfiles (profiles : List Profile) (conn : List ConnectedOutput) :
    List (Nat × Profile) :=
  sortRanked ranksBefore
    (profiles.filterMap (fun p => (score p conn).map (fun s => (s, p))))

/-- Modelled from the spec: `findBest(profiles, connected)` — the top-ranked
eligible profile, or `none` when every profile is disqualified. -/
def find_best (profiles : List Profile) (conn : List ConnectedOutput) : Option Profile :=
  (matchProfiles profiles conn).head?.map Prod.snd

theorem insertRanked_ne_nil {α : Type} (r : α → α → Bool) (x : α) (l : List α) :
    insertRanked r x l ≠ [] := by
  cases l with
  | nil => simp [insertRanked]
  | cons y ys =>
    by_cases h : r x y <;> simp [insertRanked, h]

theorem sortRanked_eq_nil_iff {α : Type} (r : α → α → Bool) (l : List α) :
    sortRanked r l = [] ↔ l = [] := by
  cases l with
  | nil => simp [sortRanked]
  | cons x xs => simp [sortRanked, insertRanked_ne_nil]

/-! ### Hook (ctl.py lines 118-153)

`Hook.hook` spawns a detached child process when the command is set and
non-blank, building the child environment from a copy of the process
environment; a failure to launch the child is caught and logged.
`Hook.decorate` wraps `xrandr.apply` so the prior-switch hook runs first,
then the controller, then the post-switch hook on success, while on a
controller exception the post-fail hook runs with the error text and the
exception is re-raised.

The embedding makes the effects explicit: the process environment is a
parameter `osEnv`, a launch failure of `subprocess.Popen` is an oracle
`launchFails` on the command string, and a run produces the list of hook
events it caused. The controller outcome is a parameter
`ctrl : Except String Unit`. -/

/-- Which hook stage an event belongs to. -/
inductive Stage where
  | prior
  | post
  | postFail
  deriving Repr, DecidableEq

/-- Observable events of the hooked apply pipeline. -/
inductive HookEvent where
  /-- A child process was spawned for the stage's command with this environment. -/
  | spawned (st : Stage) (cmd : String) (env : List (String × String))
  /-- `subprocess.Popen` raised; the error was caught and logged inside `Hook.hook`. -/
  | launchFailed (st : Stage) (cmd : String)
  /-- The wrapped `xrandr.apply` (the Display Controller) was invoked. -/
  | controllerApply
  deriving Repr, DecidableEq

/-- The stage of a hook event, `none` for the controller call. -/
def HookEvent.stage : HookEvent → Option Stage
  | .spawned st _ _ => some st
  | .launchFailed st _ => some st
  | .controllerApply => none

/-- Hook commands from the `hooks` config section (ctl.py line 123). -/
structure Hook where
  prior_switch : Option String := none
  post_switch : Option String := none
  post_fail : Option String := none
  deriving Repr, DecidableEq

/-- The child environment built in `Hook.hook` (ctl.py lines 146-149):
a copy of `os.environ` with `randr_profile` set to the profile name and,
when `err` is truthy (present and non-empty), `randr_error` set to it. -/
def buildEnv (osEnv : List (String × String)) (p : Profile) (err : Option String) :
    List (String × String) :=
  let env := dictSet osEnv "randr_profile" p.name
  match err with
  | some e => if e = "" then env else dictSet env "randr_error" e
  | none => env

/-- Embedding of `Hook.hook` (ctl.py lines 143-153): the list of events one
hook run causes. Nothing happens when the command is unset or blank after
stripping; a launch failure is caught (logged) and the run still returns. -/
def Hook.hookRun (cmd : Option String) (st : Stage) (p : Profile) (err : Option String)
    (osEnv : List (String × String)) (launchFails : String → Bool) : List HookEvent :=
  match cmd with
  | none => []
  | some c =>
    if 0 < (pyStrip c).length then
      if launchFails c then [.launchFailed st c]
      else [.spawned st c (buildEnv osEnv p err)]
    else []

/-- Embedding of `apply_hook` from `Hook.decorate` (ctl.py lines 128-141):
prior-switch hook, controller apply, then post-switch hook on success or
post-fail hook (with the error text) plus re-raise on failure. Returns the
event trace and the outcome seen by the caller. -/
def Hook.applyHook (h : Hook) (p : Profile) (ctrl : Except String Unit)
    (osEnv : List (String × String)) (launchFails : String → Bool) :
    List HookEvent × Except String Unit :=
  let priorEvs := Hook.hookRun h.prior_switch .prior p none osEnv launchFails
  match ctrl with
  | .ok _ =>
    (priorEvs ++ [.controllerApply] ++
      Hook.hookRun h.post_switch .post p none osEnv launchFails, .ok ())
  | .error e =>
    (priorEvs ++ [.controllerApply] ++
      Hook.hookRun h.post_fail .postFail p (some e) osEnv launchFails, .error e)

/-! ### RandrCtl.switch_auto (ctl.py lines 29-42) -/

/-- Embedding of `RandrCtl.switch_auto`: the profile handed to
`xrandr.apply` (`none` when no apply happens) and whether the
"No matching profile found" warning was logged. -/
def switch_auto (profiles : List Profile) (conn : List ConnectedOutput) :
    Option Profile × Bool :=
  match find_best profiles conn with
  | some matching => (some matching, false)
  | none => (none, true)

/-! ### RandrCtl.dump_current (ctl.py lines 44-77)

`profile_from_xrandr` lives in `randrctl/profile.py` (not among the
sources); the captured profile is therefore a parameter, and the embedding
covers the transformation `dump_current` performs on it before writing or
printing. -/

/-- The rule pruning of `dump_current` (ctl.py lines 59-68). -/
def pruneRule (include_supports_rule include_preferred_rule include_edid_rule : Bool)
    (r : MatchRule) : MatchRule :=
  { r with
    supports := if include_supports_rule then r.supports else none
    prefers := if include_preferred_rule then r.prefers else none
    edid := if include_edid_rule then r.edid else none }

/-- Embedding of the profile transformation in `RandrCtl.dump_current`
(ctl.py lines 56-72): set the priority, drop or prune the rules according
to the include flags, and null every output's rate when
`include_refresh_rate` is false. -/
def dump_transform (profile : Profile)
    (include_supports_rule include_preferred_rule include_edid_rule
      include_refresh_rate : Bool) (priority : Int) : Profile :=
  let p₁ := { profile with priority := priority }
  let p₂ :=
    if !(include_edid_rule || include_supports_rule || include_preferred_rule) then
      { p₁ with rules := none }
    else
      { p₁ with rules := p₁.rules.map (List.map (fun nr =>
          (nr.1, pruneRule include_supports_rule include_preferred_rule
            include_edid_rule nr.2))) }
  if include_refresh_rate then p₂
  else { p₂ with outputs := p₂.outputs.map (fun o => { o with rate := none }) }

/-! ### CtlFactory (ctl.py lines 156-244) -/

/-- Embedding of `os.path.join` for the paths the factory builds. -/
def joinPath (a b : String) : String := a ++ "/" ++ b

/-- Observable events of `CtlFactory.ensure_homes`. -/
inductive HomeEvent where
  /-- "No home directories found among ..." -/
  | warnedNoHomes
  /-- "No home directory found under preferred location ..." -/
  | warnedPreferredInvalid
  /-- `init_home` created the profiles directory at this path. -/
  | createdProfilesDir (path : String)
  deriving Repr, DecidableEq

/-- Embedding of `CtlFactory.is_valid_home` (ctl.py lines 237-239): the
filesystem is the oracle `isDir`. -/
def is_valid_home (isDir : String → Bool) (home_dir : String) : Bool :=
  isDir (joinPath home_dir "profiles")

/-- Embedding of `CtlFactory.ensure_homes` (ctl.py lines 171-182) with
`preferred` standing for `self.preferred_home` (the first element of the
homes the factory was built with). Returns the resulting home list and the
logged / filesystem events. -/
def ensure_homes (isDir : String → Bool) (preferred : String) (homes : List String) :
    List String × List HomeEvent :=
  let valid_homes := homes.filter (is_valid_home isDir)
  if valid_homes.length = 0 then
    ([preferred], [.warnedNoHomes, .createdProfilesDir (joinPath preferred "profiles")])
  else if valid_homes.count preferred = 0 then
    (valid_homes, [.warnedPreferredInvalid])
  else
    (valid_homes, [])

/-- A YAML value as the config merge sees it: `null`, a scalar, or a
mapping. -/
inductive Val where
  | null
  | str (s : String)
  | map (m : List (String × Val))
  deriving Repr

/-- A parsed top-level config mapping. -/
abbrev Cfg := List (String × Val)

/-- Embedding of Python `dict.update(d')`: set every binding of `d'` in
turn, overwriting top-level keys wholesale. -/
def dictUpdate (d d' : Cfg) : Cfg :=
  d'.foldl (fun acc kv => dictSet acc kv.1 kv.2) d

/-- One step of the config loop in `CtlFactory.get_randrctl` (ctl.py lines
210-218): a file that parsed contributes via `dict.update`; a file whose
parse failed (`yaml.YAMLError`, logged) contributes nothing. -/
def applyFile (acc : Cfg) (f : Option Cfg) : Cfg :=
  match f with
  | none => acc
  | some c => dictUpdate acc c

/-- Embedding of the config merge of `CtlFactory.get_randrctl` (ctl.py
lines 203-218): the per-home parse results arrive in home order (preferred
first), the list is reversed so the preferred home comes last, and the
results are folded into an initially empty dict. -/
def loadConfig (files : List (Option Cfg)) : Cfg :=
  files.reverse.foldl applyFile []

/-- The same fold over bare configs (all files parsed). -/
def mergeShallow (cfgs : List Cfg) : Cfg :=
  cfgs.foldl dictUpdate []

/-- Embedding of `CtlFactory._config_safe` (ctl.py lines 184-192):
`config.get(section).get(property) if section in config else None`. When
the section's value is not a mapping, `.get` on it raises
(`AttributeError`), embedded as an error. -/
def config_safe (config : Cfg) (sect : String) (prop : String) :
    Except String (Option Val) :=
  match dictGet config sect with
  | none => .ok none
  | some (Val.map m) => .ok (dictGet m prop)
  | some _ => .error "AttributeError: value has no attribute get"

/-- Embedding of the hook extraction in `CtlFactory.get_randrctl` (ctl.py
lines 228-233): read the three hook commands through `_config_safe`; any
raised exception propagates, there is no handler around these calls. -/
def getHooksConfig (config : Cfg) :
    Except String (Option Val × Option Val × Option Val) := do
  let ps ← config_safe config "hooks" "prior_switch"
  let pos ← config_safe config "hooks" "post_switch"
  let pf ← config_safe config "hooks" "post_fail"
  pure (ps, pos, pf)

/-! ### Concrete instances used by the witnesses -/

/-- A concrete profile. -/
def exProfile : Profile := { name := "office" }

/-- A concrete hook configuration with all three stages set. -/
def hookEx : Hook :=
  { prior_switch := some "echo prior", post_switch := some "echo post",
    post_fail := some "echo fail" }

/-! ### Theorems -/

theorem score_eq_none_iff (p : Profile) (O : List ConnectedOutput) :
    score p O = none ↔ ∃ o ∈ p.outputs, ∀ c ∈ O, c.name ≠ o.name := by
  unfold score
  rcases hall : p.outputs.all (fun o => outputPresent O o.name) with _ | _
  · rw [if_neg (by simp [hall])]
    simp only [true_iff]
    rw [List.all_eq_false] at hall
    obtain ⟨o, ho, hno⟩ := hall
    refine ⟨o, ho, fun c hc heq => ?_⟩
    exact hno (by simp only [outputPresent, List.any_eq_true]; exact ⟨c, hc, by simp [heq]⟩)
  · rw [if_pos (by simp [hall])]
    constructor
    · intro h
      exact absurd h (Option.some_ne_none _)
    · rintro ⟨o, ho, habs⟩
      exfalso
      rw [List.all_eq_true] at hall
      have hpres := hall o ho
      simp only [outputPresent, List.any_eq_true, decide_eq_true_iff] at hpres
      obtain ⟨c, hc, hname⟩ := hpres
      exact habs c hc hname

/-- C1: `find_best P O` returns `none` iff every profile in `P` names at
least one output that is not present among the connected outputs `O`
(every profile is disqualified); in particular `find_best` on an empty
profile list returns `none`. -/
theorem find_best_none_iff_all_disqualified (P : List Profile) (O : List ConnectedOutput) :
    (find_best P O = none ↔ ∀ p ∈ P, ∃ o ∈ p.outputs, ∀ c ∈ O, c.name ≠ o.name) ∧
    find_best ([] : List Profile) O = none := by
  refine ⟨?_, rfl⟩
  unfold find_best matchProfiles
  rw [Option.map_eq_none', List.head?_eq_none_iff, sortRanked_eq_nil_iff,
    List.filterMap_eq_nil_iff]
  constructor
  · intro h p hp
    exact (score_eq_none_iff p O).mp (Option.map_eq_none'.mp (h p hp))
  · intro h p hp
    exact Option.map_eq_none'.mpr ((score_eq_none_iff p O).mpr (h p hp))

/-- C7: when `find_best` returns `none`, `switch_auto` logs the warning,
hands nothing to `xrandr.apply`, and returns normally. -/
theorem switch_auto_no_match (profiles : List Profile) (conn : List ConnectedOutput)
    (h : find_best profiles conn = none) :
    switch_auto profiles conn = (none, true) := by
  unfold switch_auto
  rw [h]

theorem switch_auto_no_match_witness :
    find_best ([] : List Profile) [] = none ∧
    switch_auto ([] : List Profile) [] = (none, true) :=
  ⟨rfl, switch_auto_no_match [] [] rfl⟩

/-- C9: `dump_current` with `include_refresh_rate = false` produces a
profile equal to the `include_refresh_rate = true` result except that every
output record's `rate` field is `none`; in particular every output of the
result has `rate = none`. -/
theorem dump_transform_refresh_rate (profile : Profile)
    (incS incP incE : Bool) (priority : Int) :
    (∀ o ∈ (dump_transform profile incS incP incE false priority).outputs, o.rate = none) ∧
    dump_transform profile incS incP incE false priority =
      { dump_transform profile incS incP incE true priority with
        outputs := (dump_transform profile incS incP incE true priority).outputs.map
          (fun o => { o with rate := none }) } := by
  constructor
  · intro o ho
    have houts : (dump_transform profile incS incP incE false priority).outputs =
        (dump_transform profile incS incP incE true priority).outputs.map
          (fun o => { o with rate := none }) := rfl
    rw [houts, List.mem_map] at ho
    obtain ⟨a, -, rfl⟩ := ho
    rfl
  · rfl

theorem hookRun_single (cmd : String) (st : Stage) (p : Profile) (err : Option String)
    (osEnv : List (String × String)) (launchFails : String → Bool)
    (hnb : 0 < (pyStrip cmd).length) :
    Hook.hookRun (some cmd) st p err osEnv launchFails =
      if launchFails cmd then [.launchFailed st cmd]
      else [.spawned st cmd (buildEnv osEnv p err)] := by
  simp only [Hook.hookRun]
  rw [if_pos hnb]

/-- C2: with the prior- and post-switch hooks configured (non-blank), the
prior-switch hook runs strictly before the controller apply call whatever
the controller's outcome will be; on controller success the post-switch
hook is spawned and no post-fail stage event ever occurs. -/
theorem applyHook_hook_order (h : Hook) (p : Profile) (osEnv : List (String × String))
    (launchFails : String → Bool) (c cp : String)
    (hc : h.prior_switch = some c) (hcnb : 0 < (pyStrip c).length)
    (hcp : h.post_switch = some cp) (hcpnb : 0 < (pyStrip cp).length)
    (hcpok : launchFails cp = false) :
    (∀ ctrl : Except String Unit, ∃ ev tailEvs,
        (h.applyHook p ctrl osEnv launchFails).1 =
          ev :: HookEvent.controllerApply :: tailEvs ∧
        ev.stage = some Stage.prior) ∧
    HookEvent.spawned Stage.post cp (buildEnv osEnv p none) ∈
      (h.applyHook p (.ok ()) osEnv launchFails).1 ∧
    ∀ e ∈ (h.applyHook p (.ok ()) osEnv launchFails).1, e.stage ≠ some Stage.postFail := by
  have hprior : ∃ ev : HookEvent, ev.stage = some Stage.prior ∧
      Hook.hookRun h.prior_switch .prior p none osEnv launchFails = [ev] := by
    rw [hc, hookRun_single c .prior p none osEnv launchFails hcnb]
    by_cases hfc : launchFails c
    · rw [if_pos hfc]
      exact ⟨.launchFailed .prior c, rfl, rfl⟩
    · rw [if_neg hfc]
      exact ⟨.spawned .prior c (buildEnv osEnv p none), rfl, rfl⟩
  obtain ⟨ev, hst, hrun⟩ := hprior
  have hpost : Hook.hookRun h.post_switch .post p none osEnv launchFails =
      [.spawned .post cp (buildEnv osEnv p none)] := by
    rw [hcp, hookRun_single cp .post p none osEnv launchFails hcpnb,
      if_neg (by simp [hcpok])]
  refine ⟨fun ctrl => ?_, ?_, ?_⟩
  · cases ctrl with
    | ok u =>
      refine ⟨ev, Hook.hookRun h.post_switch .post p none osEnv launchFails, ?_, hst⟩
      simp [Hook.applyHook, hrun]
    | error e =>
      refine ⟨ev, Hook.hookRun h.post_fail .postFail p (some e) osEnv launchFails, ?_, hst⟩
      simp [Hook.applyHook, hrun]
  · simp [Hook.applyHook, hrun, hpost]
  · intro e he
    have htr : (h.applyHook p (.ok ()) osEnv launchFails).1 =
        [ev, HookEvent.controllerApply,
          HookEvent.spawned .post cp (buildEnv osEnv p none)] := by
      simp [Hook.applyHook, hrun, hpost]
    rw [htr] at he
    simp only [List.mem_cons, List.not_mem_nil, or_false] at he
    rcases he with rfl | rfl | rfl
    · rw [hst]
      simp
    · simp [HookEvent.stage]
    · simp [HookEvent.stage]

theorem applyHook_hook_order_witness :
    (∀ ctrl : Except String Unit, ∃ ev tailEvs,
        (hookEx.applyHook exProfile ctrl [] (fun _ => false)).1 =
          ev :: HookEvent.controllerApply :: tailEvs ∧
        ev.stage = some Stage.prior) ∧
    HookEvent.spawned Stage.post "echo post" (buildEnv [] exProfile none) ∈
      (hookEx.applyHook exProfile (.ok ()) [] (fun _ => false)).1 ∧
    ∀ e ∈ (hookEx.applyHook exProfile (.ok ()) [] (fun _ => false)).1,
      e.stage ≠ some Stage.postFail :=
  applyHook_hook_order hookEx exProfile [] (fun _ => false) "echo prior" "echo post"
    rfl (by decide) rfl (by decide) rfl

/-- C3: when the controller apply raises, the post-fail hook is spawned
with the error message passed into its environment build, the original
error is re-raised to the caller whatever the launch outcomes of the hooks,
and hook launch failures never change the outcome of the hooked apply for
any controller result. -/
theorem applyHook_failure_reraise (h : Hook) (p : Profile)
    (osEnv : List (String × String)) (launchFails : String → Bool) (c e : String)
    (hc : h.post_fail = some c) (hcnb : 0 < (pyStrip c).length)
    (hok : launchFails c = false) :
    HookEvent.spawned Stage.postFail c (buildEnv osEnv p (some e)) ∈
      (h.applyHook p (.error e) osEnv launchFails).1 ∧
    (∀ g : String → Bool, (h.applyHook p (.error e) osEnv g).2 = .error e) ∧
    (∀ (g : String → Bool) (ctrl : Except String Unit),
      (h.applyHook p ctrl osEnv g).2 = ctrl) := by
  refine ⟨?_, fun g => rfl, fun g ctrl => ?_⟩
  · have hpf : Hook.hookRun h.post_fail .postFail p (some e) osEnv launchFails =
        [.spawned .postFail c (buildEnv osEnv p (some e))] := by
      rw [hc, hookRun_single c .postFail p (some e) osEnv launchFails hcnb,
        if_neg (by simp [hok])]
    simp [Hook.applyHook, hpf]
  · cases ctrl with
    | ok u => rfl
    | error e' => rfl

theorem applyHook_failure_reraise_witness :
    HookEvent.spawned Stage.postFail "echo fail" (buildEnv [] exProfile (some "boom")) ∈
      (hookEx.applyHook exProfile (.error "boom") [] (fun _ => false)).1 ∧
    (∀ g : String → Bool,
      (hookEx.applyHook exProfile (.error "boom") [] g).2 = .error "boom") ∧
    (∀ (g : String → Bool) (ctrl : Except String Unit),
      (hookEx.applyHook exProfile ctrl [] g).2 = ctrl) :=
  applyHook_failure_reraise hookEx exProfile [] (fun _ => false) "echo fail" "boom"
    rfl (by decide) rfl

/-- C4 counterexample: the empty string is a provided error, yet — because
`Hook.hook` tests the error with Python truthiness (`if err:`) — the
spawned child environment does not bind `randr_error` at all. -/
theorem hookRun_blank_error_unbound :
    Hook.hookRun (some "echo fail") Stage.postFail exProfile (some "") [] (fun _ => false) =
      [HookEvent.spawned Stage.postFail "echo fail" (buildEnv [] exProfile (some ""))] ∧
    dictGet (buildEnv [] exProfile (some "")) "randr_error" = none := by
  refine ⟨?_, by decide⟩
  rw [hookRun_single "echo fail" .postFail exProfile (some "") [] (fun _ => false)
    (by decide)]
  rfl

/-- C4 (amended): a hook run with a non-blank command spawns one child
whose environment is the process environment overridden with
`randr_profile = p.name`, and with `randr_error` bound to the error string
exactly when a NON-EMPTY error is provided (an empty error string is
treated like an absent one); a run with an unset or blank command spawns
nothing. -/
theorem hookRun_spawn_env (cmd : String) (st : Stage) (p : Profile) (err : Option String)
    (osEnv : List (String × String)) (launchFails : String → Bool)
    (hnb : 0 < (pyStrip cmd).length) (hok : launchFails cmd = false) :
    Hook.hookRun (some cmd) st p err osEnv launchFails =
      [HookEvent.spawned st cmd (buildEnv osEnv p err)] ∧
    dictGet (buildEnv osEnv p err) "randr_profile" = some p.name ∧
    (∀ e : String, err = some e → e ≠ "" →
      dictGet (buildEnv osEnv p err) "randr_error" = some e) ∧
    (err = none ∨ err = some "" →
      dictGet (buildEnv osEnv p err) "randr_error" = dictGet osEnv "randr_error") ∧
    (∀ k : String, k ≠ "randr_profile" → k ≠ "randr_error" →
      dictGet (buildEnv osEnv p err) k = dictGet osEnv k) ∧
    (∀ cb : String, (pyStrip cb).length = 0 →
      Hook.hookRun (some cb) st p err osEnv launchFails = []) ∧
    Hook.hookRun none st p err osEnv launchFails = [] := by
  have hne : ("randr_profile" : String) ≠ "randr_error" := by decide
  refine ⟨?_, ?_, ?_, ?_, ?_, ?_, rfl⟩
  · rw [hookRun_single cmd st p err osEnv launchFails hnb, if_neg (by simp [hok])]
  · cases err with
    | none => exact dictGet_dictSet_same osEnv "randr_profile" p.name
    | some e =>
      by_cases he : e = ""
      · simp only [buildEnv, he, if_pos rfl]
        exact dictGet_dictSet_same osEnv "randr_profile" p.name
      · simp only [buildEnv, if_neg he]
        rw [dictGet_dictSet_ne _ _ _ _ hne]
        exact dictGet_dictSet_same osEnv "randr_profile" p.name
  · rintro e rfl he
    simp only [buildEnv, if_neg he]
    exact dictGet_dictSet_same _ "randr_error" e
  · rintro (rfl | rfl)
    · exact dictGet_dictSet_ne osEnv "randr_profile" "randr_error" p.name (Ne.symm hne)
    · simp only [buildEnv, if_pos rfl]
      exact dictGet_dictSet_ne osEnv "randr_profile" "randr_error" p.name (Ne.symm hne)
  · intro k hk1 hk2
    cases err with
    | none => exact dictGet_dictSet_ne osEnv "randr_profile" k p.name hk1
    | some e =>
      by_cases he : e = ""
      · simp only [buildEnv, he, if_pos rfl]
        exact dictGet_dictSet_ne osEnv "randr_profile" k p.name hk1
      · simp only [buildEnv, if_neg he]
        rw [dictGet_dictSet_ne _ _ _ _ hk2]
        exact dictGet_dictSet_ne osEnv "randr_profile" k p.name hk1
  · intro cb hcb
    simp only [Hook.hookRun]
    rw [if_neg (by omega)]

theorem hookRun_spawn_env_witness :
    Hook.hookRun (some "echo go") Stage.prior exProfile (some "boom")
        [("PATH", "/bin")] (fun _ => false) =
      [HookEvent.spawned Stage.prior "echo go"
        (buildEnv [("PATH", "/bin")] exProfile (some "boom"))] ∧
    dictGet (buildEnv [("PATH", "/bin")] exProfile (some "boom")) "randr_profile" =
      some exProfile.name ∧
    (∀ e : String, (some "boom" : Option String) = some e → e ≠ "" →
      dictGet (buildEnv [("PATH", "/bin")] exProfile (some "boom")) "randr_error" = some e) ∧
    ((some "boom" : Option String) = none ∨ (some "boom" : Option String) = some "" →
      dictGet (buildEnv [("PATH", "/bin")] exProfile (some "boom")) "randr_error" =
        dictGet [("PATH", "/bin")] "randr_error") ∧
    (∀ k : String, k ≠ "randr_profile" → k ≠ "randr_error" →
      dictGet (buildEnv [("PATH", "/bin")] exProfile (some "boom")) k =
        dictGet [("PATH", "/bin")] k) ∧
    (∀ cb : String, (pyStrip cb).length = 0 →
      Hook.hookRun (some cb) Stage.prior exProfile (some "boom")
        [("PATH", "/bin")] (fun _ => false) = []) ∧
    Hook.hookRun none Stage.prior exProfile (some "boom")
      [("PATH", "/bin")] (fun _ => false) = [] :=
  hookRun_spawn_env "echo go" Stage.prior exProfile (some "boom")
    [("PATH", "/bin")] (fun _ => false) (by decide) rfl

theorem dictGet_eq_none_of_not_mem_keys {α : Type} (d : List (String × α)) (k : String)
    (h : k ∉ d.map Prod.fst) : dictGet d k = none := by
  induction d with
  | nil => rfl
  | cons kv rest ih =>
    obtain ⟨k₀, v₀⟩ := kv
    simp only [List.map_cons, List.mem_cons] at h
    push_neg at h
    obtain ⟨h1, h2⟩ := h
    simp only [dictGet, if_neg (Ne.symm h1)]
    exact ih h2

theorem dictGet_dictUpdate (d d' : Cfg) (k : String)
    (h : (d'.map Prod.fst).Nodup) :
    dictGet (dictUpdate d d') k = (dictGet d' k).or (dictGet d k) := by
  induction d' generalizing d with
  | nil => simp [dictUpdate, dictGet]
  | cons kv rest ih =>
    obtain ⟨k₀, v₀⟩ := kv
    simp only [List.map_cons, List.nodup_cons] at h
    obtain ⟨hk₀, hrest⟩ := h
    have hstep : dictUpdate d ((k₀, v₀) :: rest) = dictUpdate (dictSet d k₀ v₀) rest := rfl
    rw [hstep, ih _ hrest]
    by_cases hk : k₀ = k
    · subst hk
      rw [dictGet_dictSet_same, dictGet_eq_none_of_not_mem_keys rest k₀ hk₀]
      simp [dictGet]
    · rw [dictGet_dictSet_ne _ _ _ _ (fun hh => hk hh.symm)]
      simp [dictGet, hk]

theorem dictGet_foldl_dictUpdate (cfgs : List Cfg) (d : Cfg) (k : String)
    (h : ∀ c ∈ cfgs, (c.map Prod.fst).Nodup) :
    dictGet (cfgs.foldl dictUpdate d) k =
      (cfgs.reverse.findSome? (fun c => dictGet c k)).or (dictGet d k) := by
  induction cfgs generalizing d with
  | nil => simp
  | cons c rest ih =>
    simp only [List.foldl_cons]
    rw [ih _ (fun c' hc' => h c' (List.mem_cons_of_mem _ hc')),
      dictGet_dictUpdate d c k (h c (List.mem_cons_self _ _)),
      List.reverse_cons, List.findSome?_append]
    rcases hv : rest.reverse.findSome? (fun c => dictGet c k) with _ | v <;>
      rcases hc : dictGet c k with _ | w <;>
        simp [List.findSome?, hv, hc]

theorem foldl_applyFile_filterMap (l : List (Option Cfg)) (d : Cfg) :
    l.foldl applyFile d = (l.filterMap id).foldl dictUpdate d := by
  induction l generalizing d with
  | nil => rfl
  | cons f rest ih =>
    cases f with
    | none => simpa [applyFile] using ih d
    | some c => simpa [applyFile] using ih (dictUpdate d c)

/-- C5: the merged configuration is a shallow, top-level-key-overwrite
fold; with the parsed per-home configs listed from most- to
least-preferred (the factory's home order), each top-level key gets
exactly the whole value of the first (most-preferred) config defining it. -/
theorem loadConfig_top_level_overwrite (cfgs : List Cfg) (k : String)
    (h : ∀ c ∈ cfgs, (c.map Prod.fst).Nodup) :
    dictGet (loadConfig (cfgs.map some)) k = cfgs.findSome? (fun c => dictGet c k) := by
  have h1 : loadConfig (cfgs.map some) = mergeShallow cfgs.reverse := by
    unfold loadConfig mergeShallow
    rw [← List.map_reverse, foldl_applyFile_filterMap]
    congr 1
    simp
  rw [h1]
  unfold mergeShallow
  rw [dictGet_foldl_dictUpdate cfgs.reverse [] k
    (fun c hc => h c (List.mem_reverse.mp hc)), List.reverse_reverse]
  simp [dictGet]

theorem loadConfig_top_level_overwrite_witness :
    (∀ c ∈ [[("hooks", Val.map [("prior_switch", Val.str "echo A")])],
        [("hooks", Val.map [("prior_switch", Val.str "echo B"),
          ("post_switch", Val.str "echo C")])]],
      (c.map Prod.fst).Nodup) ∧
    dictGet (loadConfig ([[("hooks", Val.map [("prior_switch", Val.str "echo A")])],
        [("hooks", Val.map [("prior_switch", Val.str "echo B"),
          ("post_switch", Val.str "echo C")])]].map some)) "hooks" =
      [[("hooks", Val.map [("prior_switch", Val.str "echo A")])],
        [("hooks", Val.map [("prior_switch", Val.str "echo B"),
          ("post_switch", Val.str "echo C")])]].findSome? (fun c => dictGet c "hooks") :=
  ⟨by decide, loadConfig_top_level_overwrite _ "hooks" (by decide)⟩

/-- C8: a config file whose parse failed contributes nothing — the merge
over any file list containing it equals the merge with it removed — and in
general the merged configuration is exactly the shallow merge of the
successfully parsed files, so the other files still contribute and a
malformed file never aborts loading. -/
theorem loadConfig_parse_failure (fs₁ fs₂ fs : List (Option Cfg)) :
    loadConfig (fs₁ ++ none :: fs₂) = loadConfig (fs₁ ++ fs₂) ∧
    loadConfig fs = mergeShallow ((fs.filterMap id).reverse) := by
  constructor
  · unfold loadConfig
    simp [List.reverse_append, List.reverse_cons, List.foldl_append, applyFile]
  · unfold loadConfig mergeShallow
    rw [foldl_applyFile_filterMap]
    congr 1
    simp

/-- C10: `_config_safe` returns `None` when the section key is absent, but
raises (an `AttributeError`, here an `Except.error`) when the section is
present with a non-mapping value such as YAML `null`; `get_randrctl`'s hook
extraction therefore fails on a config whose `hooks:` key is left empty
instead of treating the hooks as unset. -/
theorem config_safe_sections (config : Cfg) (sect prop : String) :
    (dictGet config sect = none → config_safe config sect prop = .ok none) ∧
    (∀ v : Val, dictGet config sect = some v → (∀ m, v ≠ Val.map m) →
      ∃ msg, config_safe config sect prop = .error msg) ∧
    (dictGet config "hooks" = some Val.null →
      ∃ msg, getHooksConfig config = .error msg) := by
  refine ⟨?_, ?_, ?_⟩
  · intro h
    simp only [config_safe]
    rw [h]
  · intro v hv hnm
    simp only [config_safe]
    rw [hv]
    cases v with
    | null => exact ⟨_, rfl⟩
    | str s => exact ⟨_, rfl⟩
    | map m => exact absurd rfl (hnm m)
  · intro h
    have h1 : config_safe config "hooks" "prior_switch" =
        .error "AttributeError: value has no attribute get" := by
      simp only [config_safe]
      rw [h]
    refine ⟨"AttributeError: value has no attribute get", ?_⟩
    unfold getHooksConfig
    rw [h1]
    rfl

theorem config_safe_sections_witness :
    config_safe ([] : Cfg) "hooks" "prior_switch" = .ok none ∧
    (∃ msg, config_safe [("hooks", Val.null)] "hooks" "prior_switch" = .error msg) ∧
    (∃ msg, getHooksConfig [("hooks", Val.null)] = .error msg) :=
  ⟨(config_safe_sections [] "hooks" "prior_switch").1 rfl,
   (config_safe_sections [("hooks", Val.null)] "hooks" "prior_switch").2.1 Val.null rfl
     (fun _ h => Val.noConfusion h),
   (config_safe_sections [("hooks", Val.null)] "hooks" "prior_switch").2.2 rfl⟩

/-- C6: when at least one candidate home is valid, `ensure_homes` keeps
exactly the valid candidates in their original order, creates nothing, and
warns about the preferred home exactly when the preferred (first)
candidate is invalid; when no candidate is valid it bootstraps the
preferred candidate's profiles directory and returns just that home. -/
theorem ensure_homes_valid_or_bootstrap (isDir : String → Bool) (preferred : String)
    (rest : List String) :
    ((preferred :: rest).filter (is_valid_home isDir) ≠ [] →
      (ensure_homes isDir preferred (preferred :: rest)).1 =
          (preferred :: rest).filter (is_valid_home isDir) ∧
        (∀ pth, HomeEvent.createdProfilesDir pth ∉
          (ensure_homes isDir preferred (preferred :: rest)).2) ∧
        (HomeEvent.warnedPreferredInvalid ∈
            (ensure_homes isDir preferred (preferred :: rest)).2 ↔
          is_valid_home isDir preferred = false)) ∧
    ((preferred :: rest).filter (is_valid_home isDir) = [] →
      ensure_homes isDir preferred (preferred :: rest) =
        ([preferred], [.warnedNoHomes, .createdProfilesDir (joinPath preferred "profiles")])) := by
  constructor
  · intro hne
    have hlen : ¬ ((preferred :: rest).filter (is_valid_home isDir)).length = 0 := by
      simpa [List.length_eq_zero] using hne
    simp only [ensure_homes]
    rw [if_neg hlen]
    by_cases hcnt : ((preferred :: rest).filter (is_valid_home isDir)).count preferred = 0
    · rw [if_pos hcnt]
      refine ⟨rfl, fun pth => by simp, ?_⟩
      simp only [List.mem_singleton, true_iff, iff_true]
      by_contra hv
      rw [List.count_eq_zero] at hcnt
      apply hcnt
      rw [List.mem_filter]
      refine ⟨List.mem_cons_self _ _, ?_⟩
      revert hv
      cases is_valid_home isDir preferred <;> simp
    · rw [if_neg hcnt]
      refine ⟨rfl, fun pth => by simp, ?_⟩
      constructor
      · intro hmem
        simp at hmem
      · intro hv
        exfalso
        apply hcnt
        rw [List.count_eq_zero]
        intro hmem
        rw [List.mem_filter] at hmem
        rw [hmem.2] at hv
        cases hv
  · intro heq
    simp only [ensure_homes]
    rw [if_pos (by simp [heq])]

theorem ensure_homes_valid_or_bootstrap_witness :
    (ensure_homes (fun s => s == "/etc/randrctl/profiles") "/home/u"
        ["/home/u", "/etc/randrctl"]).1 = ["/etc/randrctl"] ∧
    HomeEvent.warnedPreferredInvalid ∈
      (ensure_homes (fun s => s == "/etc/randrctl/profiles") "/home/u"
        ["/home/u", "/etc/randrctl"]).2 := by
  have h := (ensure_homes_valid_or_bootstrap (fun s => s == "/etc/randrctl/profiles")
    "/home/u" ["/etc/randrctl"]).1 (by decide)
  exact ⟨by rw [h.1]; decide, h.2.2.mpr (by decide)⟩

end Randrctl
